import Mathlib

/-!
Verification of the FFmpeg-Commands repository core against its design
specification.  The Python sources (`MetadataAcquisition.py`, `Render.py`,
`FileOperations.py`) are shallowly embedded below: strings are `List Char`
wrapped in `String`, Python exceptions become `Except`, external subprocess
effects become oracle parameters, and the filesystem touched by the render
pipeline becomes an explicit state record.  Every definition mirrors the
corresponding Python function; the theorems at the end settle the claims.
-/

/-! ## Python string primitives

Helpers reproducing the exact behaviour of the CPython `str` operations the
sources use: substring containment (`in`), `split(kw, 1)[1]`, `split(sep)`,
`splitlines()`, `rstrip`, `lstrip`, and clamped slicing `s[-n:]`. -/

instance instDecEqExceptS2P {ε α : Type} [DecidableEq ε] [DecidableEq α] :
    DecidableEq (Except ε α) := fun x y =>
  match x, y with
  | .ok a, .ok b =>
    if h : a = b then isTrue (by rw [h])
    else isFalse (by intro he; cases he; exact h rfl)
  | .error a, .error b =>
    if h : a = b then isTrue (by rw [h])
    else isFalse (by intro he; cases he; exact h rfl)
  | .ok _, .error _ => isFalse (by intro he; cases he)
  | .error _, .ok _ => isFalse (by intro he; cases he)

/-- Python `needle in hay` (substring containment). -/
def pyContainsSub (hay needle : List Char) : Bool :=
  match hay with
  | [] => needle.isEmpty
  | _ :: t => needle.isPrefixOf hay || pyContainsSub t needle

/-- Python `hay.split(needle, 1)[1]`: the remainder after the first
occurrence of `needle`, or `none` when `needle` does not occur. -/
def pySplitAfterFirst (needle : List Char) : List Char → Option (List Char)
  | [] => if needle.isEmpty then some [] else none
  | c :: t =>
    if needle.isPrefixOf (c :: t) then some ((c :: t).drop needle.length)
    else pySplitAfterFirst needle t

/-- Python `s.split(sep)` for a one-character separator
(`''.split(sep) = ['']`, trailing separator yields a trailing `''`). -/
def pySplitChar (sep : Char) : List Char → List (List Char)
  | [] => [[]]
  | c :: t =>
    if c = sep then [] :: pySplitChar sep t
    else
      match pySplitChar sep t with
      | [] => [[c]]
      | h :: r => (c :: h) :: r

/-- Python `s.splitlines()` for `'\n'`-separated text
(`''.splitlines() = []`, a trailing newline produces no trailing `''`). -/
def pySplitLines : List Char → List (List Char)
  | [] => []
  | c :: t =>
    if c = '\n' then [] :: pySplitLines t
    else
      match pySplitLines t with
      | [] => [[c]]
      | h :: r => (c :: h) :: r

/-- Python `s.rstrip('\n')`. -/
def rstripNewlines (l : List Char) : List Char :=
  (l.reverse.dropWhile (fun c => c = '\n')).reverse

/-- Python `s.lstrip('0')`. -/
def lstripZeros (l : List Char) : List Char :=
  l.dropWhile (fun c => c = '0')

/-- Python `s[-n:]` (last `n` characters, whole string when shorter). -/
def pyLastN (n : Nat) (l : List Char) : List Char :=
  l.drop (l.length - n)

/-! ## FileOperations._return_input_duration_in_sec (timecode converter)

The source selects a `datetime.strptime` format string purely from the
length of the timecode and the presence of `'.'`, then sums hours, minutes
and seconds and re-assembles the fractional part as a decimal string fed to
`float()`.  `strptime` is modelled below exactly as CPython's `_strptime`
compiles the five format strings used: each directive becomes a prioritised
alternation of digit patterns matched with backtracking, and the whole
string must be consumed.  `float()` on the assembled `"<int>.<digits>"`
string is modelled as the exact rational value the decimal string denotes. -/

inductive TFormat
  | fmtHMS | fmtMS | fmtS | fmtHMSf | fmtMSf | fmtSf
  deriving DecidableEq, Repr

def digitVal (c : Char) : Nat := c.toNat - '0'.toNat

def digitsToNat (ds : List Char) : Nat :=
  ds.foldl (fun acc c => 10 * acc + digitVal c) 0

/-- Candidates, in regex-alternation priority order, for a two-digit
directive whose two-digit alternatives cover exactly the values `≤ bound`
(`%H`: `2[0-3]|[0-1]\d`, `%M`: `[0-5]\d`, `%S`: `6[0-1]|[0-5]\d`). -/
def twoDigitCands (bound : Nat) : List Char → List (Nat × List Char)
  | a :: b :: rest =>
    if a.isDigit ∧ b.isDigit ∧ 10 * digitVal a + digitVal b ≤ bound then
      [(10 * digitVal a + digitVal b, rest)]
    else []
  | _ => []

/-- The trailing single-digit alternative (`\d`) of each directive. -/
def oneDigitCands : List Char → List (Nat × List Char)
  | a :: rest => if a.isDigit then [(digitVal a, rest)] else []
  | [] => []

/-- Candidates for `%f` (`[0-9]{1,6}`, greedy, value right-padded with
zeros to six digits as `_strptime` does). -/
def fracCands (l : List Char) : List (Nat × List Char) :=
  (List.range 6).filterMap (fun i =>
    let k := 6 - i
    let ds := l.take k
    if ds.length = k ∧ ds.all Char.isDigit then
      some (digitsToNat ds * 10 ^ (6 - k), l.drop k)
    else none)

inductive PatField
  | fH | fM | fS | fF | lit (c : Char)
  deriving DecidableEq

def fieldCands : PatField → List Char → List (Nat × List Char)
  | .lit ch, c :: rest => if c = ch then [(0, rest)] else []
  | .lit _, [] => []
  | .fH, l => twoDigitCands 23 l ++ oneDigitCands l
  | .fM, l => twoDigitCands 59 l ++ oneDigitCands l
  | .fS, l => twoDigitCands 61 l ++ oneDigitCands l
  | .fF, l => fracCands l

/-- Regex matching with backtracking: try each candidate of the first
directive in priority order and require the rest of the pattern to match
the rest of the string, the whole input being consumed. -/
def matchFields : List PatField → List Char → Option (List Nat)
  | [], [] => some []
  | [], _ :: _ => none
  | f :: fs, cs =>
    (fieldCands f cs).findSome? (fun vc =>
      (matchFields fs vc.2).map (fun vs => vc.1 :: vs))

def fieldsOfFormat : TFormat → List PatField
  | .fmtHMS => [.fH, .lit ':', .fM, .lit ':', .fS]
  | .fmtMS => [.fM, .lit ':', .fS]
  | .fmtS => [.fS]
  | .fmtHMSf => [.fH, .lit ':', .fM, .lit ':', .fS, .lit '.', .fF]
  | .fmtMSf => [.fM, .lit ':', .fS, .lit '.', .fF]
  | .fmtSf => [.fS, .lit '.', .fF]

/-- `datetime.strptime(s, fmt).time()` restricted to the five formats the
source uses: hour, minute, second, microsecond (defaults 0). -/
def strptimeTime (fmt : TFormat) (s : List Char) : Option (Nat × Nat × Nat × Nat) :=
  match fmt, matchFields (fieldsOfFormat fmt) s with
  | .fmtHMS, some [h, _, m, _, sec] => some (h, m, sec, 0)
  | .fmtMS, some [m, _, sec] => some (0, m, sec, 0)
  | .fmtS, some [sec] => some (0, 0, sec, 0)
  | .fmtHMSf, some [h, _, m, _, sec, _, f] => some (h, m, sec, f)
  | .fmtMSf, some [m, _, sec, _, f] => some (0, m, sec, f)
  | .fmtSf, some [sec, _, f] => some (0, 0, sec, f)
  | _, _ => none

/-- The length-threshold format selection chain of
`_return_input_duration_in_sec` (`duration.find('.') == -1` picks the
integral branch; `raise ValueError` is the `.error` case). -/
def timecode_format_of (duration : String) : Except Unit TFormat :=
  if pyContainsSub duration.data ['.'] = false then
    if 6 < duration.data.length then .ok .fmtHMS
    else if 3 < duration.data.length then .ok .fmtMS
    else if duration.data.length = 2 ∨ duration.data.length = 1 then .ok .fmtS
    else .error ()
  else
    if 9 < duration.data.length then .ok .fmtHMSf
    else if 5 < duration.data.length then .ok .fmtMSf
    else if 3 < duration.data.length then .ok .fmtSf
    else .error ()

/-- Exact value of a Python decimal string `"<intPart>.<fracDigits>"`,
which is what `float()` receives from the source's string assembly (the
claims' values 5.0 and 90.25 are exactly representable, so `float()` is
value-preserving on them). -/
def decimalToRat (intPart fracDigits : List Char) : ℚ :=
  (digitsToNat intPart : ℚ) + (digitsToNat fracDigits : ℚ) / (10 : ℚ) ^ fracDigits.length

/-- `FileOperations._return_input_duration_in_sec` on an already-acquired
duration string, up to the decimal string handed to `float()`: `'N/A'`
yields `none`; a malformed timecode (bad length or `strptime` mismatch) is
the fatal `quit()` path, `.error ()`; otherwise the result is the pair of
the digits of `hour*3600 + minute*60 + second` and the fractional digits
(`str(μs)` when `str(μs)` has six digits, else `'0' + str(μs)`). -/
def return_input_duration_digits (duration : String) :
    Except Unit (Option (List Char × List Char)) :=
  if duration = "N/A" then .ok none
  else
    match timecode_format_of duration with
    | .error _ => .error ()
    | .ok fmt =>
      match strptimeTime fmt duration.data with
      | none => .error ()
      | some (h, m, sec, f) =>
        let length_sec := h * 3600 + m * 60 + sec
        let micro := Nat.repr f
        if micro.length = 6 then
          .ok (some ((Nat.repr length_sec).data, micro.data))
        else
          .ok (some ((Nat.repr length_sec).data, '0' :: micro.data))

/-- `FileOperations._return_input_duration_in_sec`: the digit pair above
converted to its exact `float()` value. -/
def return_input_duration_in_sec (duration : String) : Except Unit (Option ℚ) :=
  (return_input_duration_digits duration).map
    (Option.map (fun p => decimalToRat p.1 p.2))

/-! ## MetadataAcquisition._find_meta_value

The source scans the text after the first occurrence of the keyword, line
by line and character by character.  The inner character loop of each
policy is translated into a recursive function on the current suffix of
the line (Python's `line[i+k:]` becomes `drop` on the suffix); the outer
line loop becomes recursion on the list `text.split(kw,1)[1].split('\n')`
with the sentinel `' '` line the source appends.  Python's `quit()`-free
uncaught errors (`return_metadata_value_list[0]` on an empty list) are the
`.error ()` case. -/

/-- Stream policy, inner character loop for a non-final line: `'#'`
contributes the rest of the line, a line whose scan reaches `Stream`
contributes from 8 characters past the match, spaces are skipped, and any
other character ends the line's scan with no contribution. -/
def streamCharScan : List Char → Option (List Char)
  | [] => none
  | c :: rest =>
    if c = '#' then some rest
    else if "Stream".data.isPrefixOf (c :: rest) then some ((c :: rest).drop 8)
    else if c = ' ' then streamCharScan rest
    else none

/-- Stream policy on the final (sentinel) line: `'#'` or `Stream` would
contribute and leave the result list empty (an `IndexError` on return);
any other first character hits the `index + 1 == len` branch, which
appends the accumulated value and stops. -/
def streamLastLine (acc : List Char) : List Char → Except Unit (List Char)
  | [] => .error ()
  | c :: rest =>
    if c = '#' then .error ()
    else if "Stream".data.isPrefixOf (c :: rest) then .error ()
    else .ok acc

/-- Stream policy, outer line loop: every `'#'`/`Stream` line's
contribution is appended (with `'\n'`) to the accumulator; other lines end
their own character scan and the loop moves on to the next line. -/
def streamLines (acc : List Char) : List (List Char) → Except Unit (List Char)
  | [] => .error ()
  | [last] => streamLastLine acc last
  | l :: l2 :: rest =>
    match streamCharScan l with
    | some v => streamLines (acc ++ v ++ ['\n']) (l2 :: rest)
    | none => streamLines acc (l2 :: rest)

/-- Crop policy, inner character loop: the value is everything 5
characters past the first `crop` found on the line. -/
def cropCharScan : List Char → Option (List Char)
  | [] => none
  | c :: rest =>
    if "crop".data.isPrefixOf (c :: rest) then some ((c :: rest).drop 5)
    else cropCharScan rest

/-- Crop policy, outer line loop (no second `crop` in any line, sentinel
included, leaves the result list empty: `IndexError`). -/
def cropLines : List (List Char) → Except Unit (List Char)
  | [] => .error ()
  | l :: rest =>
    match cropCharScan l with
    | some v => .ok v
    | none => cropLines rest

/-- The `start`/`Duration` trimming applied when a generic value is
finalised: split at the first comma, strip leading zeros, and for
`Duration` drop the stray leading colon. -/
def transformValue (kw : List Char) (v : List Char) : List Char :=
  let v1 :=
    if kw = "start".data ∨ kw = "Duration".data then
      lstripZeros ((pySplitChar ',' v).headD [])
    else v
  if kw = "Duration".data then
    match v1 with
    | ':' :: t => t
    | _ => v1
  else v1

/-- Outcome of the generic policy's character loop on one line:
`nextLine kv sawNone` moves to the next line with the accumulated value
`kv` (after a `':'` continuation or running off the end of the line);
`finish sawNone res` is the non-empty finalisation that clears the line
list and stops.  `sawNone` records that an empty finalisation appended a
Python `None` to the result list earlier in the line. -/
inductive GOut
  | nextLine (kv : List Char) (sawNone : Bool)
  | finish (sawNone : Bool) (res : List Char)
  deriving DecidableEq

/-- Generic policy, inner character loop: `':'` appends everything two
characters further (plus `'\n'`) to the value and breaks to the next line;
a space is skipped; any other character finalises the value — an empty
final value appends `None` and keeps scanning the same line. -/
def genericChars (kw kv : List Char) : List Char → GOut
  | [] => .nextLine kv false
  | c :: rest =>
    if c = ':' then .nextLine (kv ++ rest.drop 1 ++ ['\n']) false
    else if c = ' ' then genericChars kw kv rest
    else
      let complete := transformValue kw (rstripNewlines kv)
      if complete = [] then
        match genericChars kw kv rest with
        | .nextLine kv2 _ => .nextLine kv2 true
        | .finish _ r => .finish true r
      else .finish false complete

/-- The first element of the Python result list: once set (by an
empty-value `None` append) it is what the function returns. -/
def mergeFirst (first : Option (Option (List Char))) (sawNone : Bool) :
    Option (Option (List Char)) :=
  if sawNone then
    match first with
    | some v => some v
    | none => some none
  else first

/-- Generic policy, outer line loop.  `first` is the first element
appended to the Python result list so far; running out of lines with
nothing appended is the `IndexError` case. -/
def genericLines (kw : List Char) (first : Option (Option (List Char)))
    (kv : List Char) : List (List Char) → Except Unit (Option (List Char))
  | [] =>
    match first with
    | none => .error ()
    | some v => .ok v
  | l :: rest =>
    match genericChars kw kv l with
    | .nextLine kv2 sawNone => genericLines kw (mergeFirst first sawNone) kv2 rest
    | .finish sawNone res =>
      match mergeFirst first sawNone with
      | some v => .ok v
      | none => .ok (some res)

/-- `MetadataAcquisition._find_meta_value(filter_output, keyword)`:
`none` when the keyword is absent, otherwise the policy selected by the
keyword applied to the lines after its first occurrence (with the `' '`
sentinel line the source appends). -/
def find_meta_value (filter_output keyword : String) : Except Unit (Option String) :=
  match pySplitAfterFirst keyword.data filter_output.data with
  | none => .ok none
  | some remainder =>
    let lines := pySplitChar '\n' remainder ++ [[' ']]
    if keyword = "Stream" then
      (streamLines [] lines).map (fun v => some (String.mk v))
    else if keyword = "crop" then
      (cropLines lines).map (fun v => some (String.mk v))
    else
      (genericLines keyword.data none [] lines).map (fun v => v.map String.mk)

/-! ## MetadataAcquisition.return_stream_types (stream classifier)

The classifier splits the stream listing into lines and scans each line
character by character, in priority order `Video` (with the trailing
`(attached pic)` marker selecting `Artwork`), `Audio`, `Data` (chapters),
`Subtitle`.  The `Subtitle` branch re-scans the whole line for its first
`'('` and, crucially, does not break the outer character loop. -/

/-- The `Subtitle` branch's inner loop: the three characters after the
first `'('` of the whole line, or nothing when the line has no `'('`. -/
def subtitleScanFrom : List Char → List String
  | [] => []
  | c :: rest =>
    if c = '(' then ["Subtitle=" ++ String.mk (rest.take 3)] else subtitleScanFrom rest

/-- Character loop of `return_stream_types` over one line (`orig` is the
whole line, kept for the `[-14:]` marker test and the subtitle re-scan). -/
def classifyChars (orig : List Char) : List Char → List String
  | [] => []
  | c :: rest =>
    if "Video".data.isPrefixOf (c :: rest) then
      if pyLastN 14 orig = "(attached pic)".data then ["Artwork"] else ["Video"]
    else if "Audio".data.isPrefixOf (c :: rest) then ["Audio"]
    else if "Data".data.isPrefixOf (c :: rest) then ["Chapter"]
    else if "Subtitle".data.isPrefixOf (c :: rest) then
      subtitleScanFrom orig ++ classifyChars orig rest
    else classifyChars orig rest

def classifyLine (l : List Char) : List String := classifyChars l l

/-- `MetadataAcquisition.return_stream_types` on the stream listing string
(the value `return_metadata(every_stream_info=1)` produced): classify each
`splitlines()` line and concatenate. -/
def return_stream_types (strm_types : String) : List String :=
  ((pySplitLines strm_types.data).map classifyLine).flatten

/-! ## MetadataAcquisition._term_return_file_info

`subprocess.run` raises `CalledProcessError` only when invoked with
`check=True` and the exit status is non-zero; `_term_return_file_info`
calls it without `check`, so the `except` handler (quit, or `return
False`) can never run and the returned text is always `stderr + stdout`. -/

structure ProcResult where
  pstdout : String
  pstderr : String
  returncode : Int
  deriving DecidableEq

/-- `subprocess.run(cmd, check=check)`: raises `CalledProcessError`
exactly when `check` is set and the process exited non-zero. -/
def pySubRun (check : Bool) (r : ProcResult) : Except Unit ProcResult :=
  if check = true ∧ r.returncode ≠ 0 then .error () else .ok r

/-- `MetadataAcquisition._term_return_file_info` for a spawned process
result `r`: the `try` body returns `stderr + stdout`; the
`CalledProcessError` handler quits when `print_all_info` is set and
otherwise returns `False` (`Sum.inr false`).  Presentation-only printing
is omitted. -/
def term_return_file_info (print_all_info : Bool) (r : ProcResult) :
    Except Unit (String ⊕ Bool) :=
  match pySubRun false r with
  | .ok p => .ok (.inl (p.pstderr ++ p.pstdout))
  | .error _ => if print_all_info then .error () else .ok (.inr false)

/-! ## MetadataAcquisition.return_metadata

The twenty keyword parameters are each `False` or an `int` (modelled
`Option Int`; Python's `False == 0` key equality is reflected by mapping
`False` to the dict key `0`).  External probe invocations are an oracle
`probe : argv → combined stderr+stdout text`; the observable call sequence
(the at-least-one-field error print, the file-existence check, each probe)
is returned as an event trace alongside the outcome.  `quit()` is
`.error .quitExn`; the `UnboundLocalError` raised by the final
`metadata_value_list.append(current_key_value)` when the keyword loop
never ran is `.error .unboundLocal`. -/

inductive PyExn
  | quitExn | fileNotFound | fileAlready | dirNotEmpty | notADirectory
  | unboundLocal | indexErr
  deriving DecidableEq, Repr

inductive MAEv
  | printedAtLeastOneErr
  | fileCheck
  | probeCall (cmd : List String)
  deriving DecidableEq, Repr

structure MAEnv where
  probe : List String → String
  pathExistsFlag : Bool
  pathIsFileFlag : Bool
  isPosix : Bool

structure MetaParams where
  artist_author : Option Int := none
  album : Option Int := none
  description : Option Int := none
  lyrics : Option Int := none
  genre : Option Int := none
  composer : Option Int := none
  track_num : Option Int := none
  disc_num : Option Int := none
  date : Option Int := none
  start_offset : Option Int := none
  comment : Option Int := none
  title : Option Int := none
  duration : Option Int := none
  performer : Option Int := none
  max_volume : Option Int := none
  first_aud_strm_info : Option Int := none
  first_vid_strm_info : Option Int := none
  every_stream_info : Option Int := none
  crop_detect : Option Int := none
  vid_dim : Option Int := none

/-- The `(parameter, ffprobe keyword)` pairs in the order the source lists
them when building `meta_dict` and `in_meta_value_list`. -/
def metaPairs (p : MetaParams) : List (Option Int × String) :=
  [(p.artist_author, "artist"), (p.album, "album"), (p.description, "description"),
   (p.lyrics, "lyrics"), (p.genre, "genre"), (p.composer, "composer"),
   (p.track_num, "track"), (p.disc_num, "disc"), (p.date, "date"),
   (p.start_offset, "start"), (p.comment, "comment"), (p.title, "title"),
   (p.duration, "Duration"), (p.performer, "performer"), (p.max_volume, "max_volume"),
   (p.first_aud_strm_info, "Audio"), (p.first_vid_strm_info, "Video"),
   (p.every_stream_info, "Stream"), (p.crop_detect, "crop"), (p.vid_dim, "dimensions")]

/-- Python dict key for a parameter value (`False == 0`). -/
def keyOf : Option Int → Int
  | none => 0
  | some n => n

/-- Python `dict` insertion: an equal key keeps its place and gets the new
value, a fresh key is appended. -/
def pyDictInsert (d : List (Int × String)) (k : Int) (v : String) : List (Int × String) :=
  if d.any (fun kv => kv.1 = k) then
    d.map (fun kv => if kv.1 = k then (kv.1, v) else kv)
  else d ++ [(k, v)]

def pyDictGet (d : List (Int × String)) (k : Int) : Option String :=
  (d.find? (fun kv => kv.1 = k)).map (fun kv => kv.2)

def metaDict (p : MetaParams) : List (Int × String) :=
  (metaPairs p).foldl (fun d kv => pyDictInsert d (keyOf kv.1) kv.2) []

/-- Python `f'{n:02d}'`. -/
def pad2 (n : Int) : String :=
  let s := toString n
  if s.length < 2 then "0" ++ s else s

/-- Code-point lexicographic comparison used by Python string sorting. -/
def pyStrLt : List Char → List Char → Bool
  | [], [] => false
  | [], _ :: _ => true
  | _ :: _, [] => false
  | x :: xs, y :: ys =>
    if x.toNat < y.toNat then true
    else if y.toNat < x.toNat then false
    else pyStrLt xs ys

def insertSortedBy (lt : α → α → Bool) (x : α) : List α → List α
  | [] => [x]
  | y :: ys => if lt x y then x :: y :: ys else y :: insertSortedBy lt x ys

/-- Stable sort (Python `list.sort`). -/
def pySortBy (lt : α → α → Bool) (l : List α) : List α :=
  l.foldl (fun acc x => insertSortedBy lt x acc) []

/-- The duplicate scan of `return_metadata`: every integer whose count
first reaches two is recorded. -/
def findDupes (l : List Int) : List Int :=
  (l.foldl
    (fun (st : List Int × List Int) x =>
      if x ∈ st.1 then
        if st.1.count x = 1 then (x :: st.1, st.2 ++ [x]) else (x :: st.1, st.2)
      else (x :: st.1, st.2))
    ([], [])).2

/-- One iteration of the keyword loop: the probe command issued and the
extracted value (`find_meta_value` failures propagate). -/
def metaStep (env : MAEnv) (inPath nullkw kw : String) :
    List String × Except Unit (Option String) :=
  if kw = "max_volume" then
    let cmd := ["ffmpeg", "-i", inPath, "-af", "volumedetect", "-f", "null", nullkw,
      "-hide_banner"]
    (cmd, find_meta_value (env.probe cmd) "max_volume")
  else if kw = "crop" then
    let cmd := ["ffmpeg", "-i", inPath, "-vf", "cropdetect", "-f", "null", nullkw,
      "-hide_banner"]
    (cmd, find_meta_value (env.probe cmd) "crop")
  else if kw = "Stream" then
    let cmd := ["ffprobe", "-i", inPath, "-hide_banner"]
    (cmd, find_meta_value (env.probe cmd) "Stream")
  else if kw = "Duration" then
    let cmd := ["ffmpeg", "-i", inPath, "-f", "null", "-"]
    (cmd, find_meta_value (env.probe cmd) "Duration")
  else
    let cmd := ["ffprobe", "-v", "quiet", "-show_entries", "format_tags=" ++ kw,
      "-of", "default=nw=1:nk=1", inPath]
    let v := env.probe cmd
    (cmd, .ok (if v = "" then none else some (String.mk v.data.dropLast)))

/-- The keyword loop; `current` is `current_key_value` (unbound before the
first iteration). -/
def metaLoop (env : MAEnv) (inPath nullkw : String)
    (current : Option (Option String)) :
    List String → List MAEv × Except PyExn (Option (Option String))
  | [] => ([], .ok current)
  | kw :: rest =>
    let (cmd, r) := metaStep env inPath nullkw kw
    match r with
    | .error _ => ([MAEv.probeCall cmd], .error .indexErr)
    | .ok v =>
      let (evs, out) := metaLoop env inPath nullkw (some v) rest
      (MAEv.probeCall cmd :: evs, out)

/-- `MetadataAcquisition.return_metadata`: validation, file check, keyword
loop, and the single `metadata_value_list.append(current_key_value)` that
sits after the loop. -/
def return_metadata (env : MAEnv) (inPath : String) (p : MetaParams) :
    List MAEv × Except PyExn (List (Option String)) :=
  let vals := (metaPairs p).map (fun kv => kv.1)
  let truthyAll := vals.all (fun v => !(decide (v = none ∨ v = some 0)))
  let evs0 : List MAEv := if truthyAll then [MAEv.printedAtLeastOneErr] else []
  let ints := vals.filterMap id
  let d := metaDict p
  let kwWithInt := ints.map (fun n => (pad2 n ++ ((pyDictGet d n).getD "")).data)
  let kwSorted := pySortBy pyStrLt kwWithInt
  let intsSorted := pySortBy (fun a b : Int => a < b) ints
  let outKeywords := kwSorted.map (fun s => String.mk (s.drop 2))
  if findDupes intsSorted ≠ [] then (evs0, .error .quitExn)
  else if intsSorted.any (fun n => n < 1 ∨ (intsSorted.length : Int) < n) then
    (evs0, .error .quitExn)
  else
    let evs1 := evs0 ++ [MAEv.fileCheck]
    if env.pathExistsFlag = false then (evs1, .error .quitExn)
    else if env.pathIsFileFlag = false then (evs1, .error .quitExn)
    else
      let nullkw := if env.isPosix then "/dev/null" else "NUL"
      let (evs2, out) := metaLoop env inPath nullkw none outKeywords
      match out with
      | .error e => (evs1 ++ evs2, .error e)
      | .ok none => (evs1 ++ evs2, .error .unboundLocal)
      | .ok (some v) => (evs1 ++ evs2, .ok [v])

/-- Probe oracle for the two-field scenario: the `title` tag prints
`Foo`, the `lyrics` tag prints `Bar` (each with the trailing newline
`ffprobe -of default=nw=1:nk=1` emits). -/
def twoFieldProbe (cmd : List String) : String :=
  if cmd.contains "format_tags=title" then "Foo\n"
  else if cmd.contains "format_tags=lyrics" then "Bar\n"
  else ""

def twoFieldEnv : MAEnv :=
  { probe := twoFieldProbe, pathExistsFlag := true, pathIsFileFlag := true,
    isPosix := true }

/-- `title=1, lyrics=2`, every other field `False`. -/
def twoFieldParams : MetaParams := { title := some 1, lyrics := some 2 }

def plainEnv : MAEnv :=
  { probe := fun _ => "", pathExistsFlag := true, pathIsFileFlag := true,
    isPosix := true }

/-- All twenty fields `False`. -/
def allFalseParams : MetaParams := {}

/-! ## Render.py — filesystem model and render pipeline

The pipeline's observable behaviour is over the filesystem: paths are
component lists, the state is the set of regular files and the set of
directories, and each `pathlib` operation is modelled with its CPython
error behaviour.  Exceptions propagate but the filesystem state persists
(`FsM α = FS → Except PyExn α × FS`).  The external `ffmpeg` process
spawned by `subprocess.run` is an oracle `exec : argv → FS → FS × Int`
(its effect on disk and its exit status); printing, timing and
`open_after_ren=False` are presentation-only and omitted. -/

abbrev FPath := List String

structure FS where
  files : List FPath
  dirs : List FPath
  deriving DecidableEq, Repr

def FsM (α : Type) : Type := FS → Except PyExn α × FS

instance : Monad FsM where
  pure a := fun fs => (.ok a, fs)
  bind x f := fun fs =>
    match x fs with
    | (.ok a, fs2) => f a fs2
    | (.error e, fs2) => (.error e, fs2)

def fsThrow (e : PyExn) : FsM α := fun fs => (.error e, fs)

def pathParent (p : FPath) : FPath := p.dropLast

def lastComponent (p : FPath) : String := p.getLastD ""

def pathStr (p : FPath) : String := String.intercalate "/" p

/-- `Path.exists()`. -/
def pathExists (p : FPath) : FsM Bool := fun fs =>
  (.ok (fs.files.contains p || fs.dirs.contains p), fs)

/-- `Path.is_file()`. -/
def pathIsFile (p : FPath) : FsM Bool := fun fs =>
  (.ok (fs.files.contains p), fs)

/-- `Path.mkdir()`: `FileExistsError` when the path exists,
`FileNotFoundError` when the parent directory is missing. -/
def fsMkdir (p : FPath) : FsM Unit := fun fs =>
  if fs.files.contains p || fs.dirs.contains p then (.error .fileAlready, fs)
  else if fs.dirs.contains (pathParent p) = false then (.error .fileNotFound, fs)
  else (.ok (), { fs with dirs := p :: fs.dirs })

/-- `Path.rmdir()`: `FileNotFoundError` when the directory does not exist,
`NotADirectoryError` on a file, `OSError` when non-empty. -/
def fsRmdir (p : FPath) : FsM Unit := fun fs =>
  if fs.dirs.contains p then
    if (fs.files ++ fs.dirs).any (fun q => pathParent q = p ∧ q ≠ p) then
      (.error .dirNotEmpty, fs)
    else (.ok (), { fs with dirs := fs.dirs.erase p })
  else if fs.files.contains p then (.error .notADirectory, fs)
  else (.error .fileNotFound, fs)

/-- `Path.unlink()`. -/
def fsUnlink (p : FPath) : FsM Unit := fun fs =>
  if fs.files.contains p then (.ok (), { fs with files := fs.files.erase p })
  else (.error .fileNotFound, fs)

/-- `Path.rename(target)` on a regular file (overwrites the target). -/
def fsRename (src dst : FPath) : FsM Unit := fun fs =>
  if fs.files.contains src then
    (.ok (), { fs with files := dst :: fs.files.erase src })
  else (.error .fileNotFound, fs)

structure RenderEnv where
  exec : List String → FS → FS × Int

/-- The in-place flag mutation of `Render.run_terminal_cmd`:
`append_hide_banner` appends `-hide_banner`, `append_faststart` appends
`-movflags +faststart`, both onto `self.ren_cmd` itself, before
`subprocess.run(self.ren_cmd)` is issued. -/
def run_terminal_cmd_cmds (append_hide_banner append_faststart : Bool)
    (ren_cmd : List String) : List String :=
  (if append_hide_banner then ren_cmd ++ ["-hide_banner"] else ren_cmd) ++
    (if append_faststart then ["-movflags", "+faststart"] else [])

/-- `self.ren_cmd` after `run_terminal_cmd`, paired with the argv the
spawned process received (the same mutated list object). -/
def run_terminal_cmd_state (append_hide_banner append_faststart : Bool)
    (ren_cmd : List String) : List String × List String :=
  let c := run_terminal_cmd_cmds append_hide_banner append_faststart ren_cmd
  (c, c)

/-- `Render.run_terminal_cmd`: mutate the command, spawn the process,
`check_returncode()` (whose `CalledProcessError` the method catches,
returning `False`); `True` on exit status zero. -/
def run_terminal_cmd (env : RenderEnv) (cmd : List String)
    (append_hide_banner append_faststart : Bool) : FsM Bool := fun fs =>
  let c := run_terminal_cmd_cmds append_hide_banner append_faststart cmd
  let (fs2, rc) := env.exec c fs
  if rc = 0 then (.ok true, fs2) else (.ok false, fs2)

/-- The input-existence loop of `Render.check_depend_then_ren` (missing or
non-regular inputs `quit()`). -/
def checkInputsExist : List FPath → FsM Unit
  | [] => pure ()
  | p :: rest => do
    let e ← pathExists p
    if e = false then fsThrow .quitExn
    else
      let f ← pathIsFile p
      if f = false then fsThrow .quitExn
      else checkInputsExist rest

/-- The output loop of `Render.check_depend_then_ren` (pre-existing output
file or missing parent directory `quit()`). -/
def checkOutputsOk : List FPath → FsM Unit
  | [] => pure ()
  | p :: rest => do
    let f ← pathIsFile p
    if f then fsThrow .quitExn
    else
      let pe ← pathExists (pathParent p)
      if pe = false then fsThrow .quitExn
      else checkOutputsOk rest

/-- `Render.check_depend_then_ren`. -/
def check_depend_then_ren (env : RenderEnv) (ins outs : List FPath)
    (cmd : List String) (append_faststart : Bool) : FsM Bool := do
  checkInputsExist ins
  checkOutputsOk outs
  run_terminal_cmd env cmd true append_faststart

/-- `FileOperations(fo_in, out_dir).copy_over_metadata(meta_file,
copy_chapters)`: build the map/copy command targeting
`standard_out_path = out_dir / fo_in.name` and run it through
`check_depend_then_ren`. -/
def copy_over_metadata (env : RenderEnv) (fo_in out_dir meta_file : FPath)
    (copy_chapters : Bool) : FsM Bool :=
  let standard_out := out_dir ++ [lastComponent fo_in]
  let cmd := ["ffmpeg", "-i", pathStr fo_in, "-i", pathStr meta_file] ++
    (if copy_chapters = false then ["-map_chapters", "-1"] else []) ++
    ["-map", "0", "-c", "copy", "-map_metadata", "1", pathStr standard_out]
  check_depend_then_ren env [fo_in] [standard_out] cmd true

/-- `Render.check_depend_then_ren_and_embed_original_metadata`.  The
`artwork=True` sub-procedure (artwork extraction and re-embedding, an
external-tool affair) is an oracle `artworkStep`; the claims' scenario
has `artwork=False`, where it never runs.  Mirrors the source exactly:
the scratch directory is removed inside the patch-miss branch *and* again
unconditionally before `return True`, and the `return True` sits inside
the `for out_path` loop (`none` is the implicit `None` Python returns
when `out_paths_list` is empty). -/
def check_depend_then_ren_and_embed_original_metadata (env : RenderEnv)
    (ins outs : List FPath) (cmd : List String)
    (append_faststart artwork copy_chapters : Bool)
    (artworkStep : FsM Unit) : FsM (Option Bool) := do
  let ok ← check_depend_then_ren env ins outs cmd append_faststart
  let in_meta_file ←
    match ins with
    | [] => (fsThrow .indexErr : FsM FPath)
    | p :: _ => pure p
  if ok then
    match outs with
    | [] => pure none
    | out :: _ => do
      let temp_dir := pathParent out ++ ["--temp_dir_to_embed_metadata_silently"]
      fsMkdir temp_dir
      let temp_out := temp_dir ++ [lastComponent out]
      let _ ← copy_over_metadata env out temp_dir in_meta_file copy_chapters
      let e ← pathExists temp_out
      if e = false then fsRmdir temp_dir
      else do
        fsUnlink out
        fsRename temp_out out
      if artwork then artworkStep else pure ()
      fsRmdir temp_dir
      pure (some true)
  else pure (some false)

/-! Concrete scenario for the patch-miss run: one existing input, the
primary render creates the declared output, and the patch command fails
(exit 1, no effect), so the embedded copy never appears. -/

def scenInPath : FPath := ["in.mp4"]

def scenOutPath : FPath := ["out.mp4"]

def scenCmd : List String := ["ffmpeg", "-i", "in.mp4", "out.mp4"]

def scenFs0 : FS := { files := [scenInPath], dirs := [[]] }

def scenTempDir : FPath := ["--temp_dir_to_embed_metadata_silently"]

/-- Subprocess oracle: the mutated primary command succeeds and writes the
declared output; every other invocation (the patch pass) exits non-zero
without touching the disk. -/
def scenEnv : RenderEnv :=
  { exec := fun c fs =>
      if c = run_terminal_cmd_cmds true true scenCmd then
        ({ fs with files := scenOutPath :: fs.files }, 0)
      else (fs, 1) }

/-! Line-level characterisation of the Stream policy, used to state what
the scanner actually does across lines: a line contributes exactly when
its first non-space character is `'#'` (the rest of the line) or starts
the word `Stream` (everything 8 characters past it); all other lines are
skipped and scanning continues. -/

def streamLinePolicy (l : List Char) : Option (List Char) :=
  match l.dropWhile (fun c => c = ' ') with
  | [] => none
  | c :: rest =>
    if c = '#' then some rest
    else if "Stream".data.isPrefixOf (c :: rest) then some ((c :: rest).drop 8)
    else none

/-- Accumulate the per-line Stream contributions over every line. -/
def streamFold (acc : List Char) (ls : List (List Char)) : List Char :=
  ls.foldl
    (fun a l =>
      match streamLinePolicy l with
      | some v => a ++ v ++ ['\n']
      | none => a)
    acc

/-- `'\n'.join(lines)` at the character-list level. -/
def interLines : List (List Char) → List Char
  | [] => []
  | [x] => x
  | x :: y :: t => x ++ '\n' :: interLines (y :: t)

/-! ## Helper lemmas -/

theorem isPrefixOf_append_self (l t : List Char) : l.isPrefixOf (l ++ t) = true := by
  simp

theorem pySplitAfterFirst_self (needle rest : List Char) (hne : needle ≠ []) :
    pySplitAfterFirst needle (needle ++ rest) = some rest := by
  cases needle with
  | nil => exact absurd rfl hne
  | cons c cs =>
    rw [List.cons_append]
    rw [pySplitAfterFirst]
    rw [← List.cons_append, if_pos (isPrefixOf_append_self (c :: cs) rest)]
    rw [List.drop_left]

theorem pySplitChar_append_sep (sep : Char) (a b : List Char) (h : ¬ sep ∈ a) :
    pySplitChar sep (a ++ sep :: b) = a :: pySplitChar sep b := by
  induction a with
  | nil => simp [pySplitChar]
  | cons c cs ih =>
    have hc : ¬ (c = sep) := fun e => h (by simp [e])
    have hcs : ¬ sep ∈ cs := fun m => h (List.mem_cons_of_mem _ m)
    rw [List.cons_append, pySplitChar, if_neg hc, ih hcs]

theorem pySplitChar_ne_nil (sep : Char) (l : List Char) : pySplitChar sep l ≠ [] := by
  cases l with
  | nil => simp [pySplitChar]
  | cons c t =>
    rw [pySplitChar]
    split
    · simp
    · split <;> simp

theorem dropWhile_head_false (p : Char → Bool) (l : List Char) (c : Char)
    (t : List Char) (h : l.dropWhile p = c :: t) : p c = false := by
  induction l with
  | nil => simp [List.dropWhile] at h
  | cons x xs ih =>
    rw [List.dropWhile_cons] at h
    by_cases hx : p x
    · rw [if_pos hx] at h
      exact ih h
    · rw [if_neg hx] at h
      injection h with h1 _
      subst h1
      simp at hx
      exact hx

theorem mem_takeWhile_true (p : Char → Bool) (l : List Char) (x : Char)
    (h : x ∈ l.takeWhile p) : p x = true := by
  induction l with
  | nil => simp [List.takeWhile] at h
  | cons c cs ih =>
    rw [List.takeWhile_cons] at h
    by_cases hc : p c
    · rw [if_pos hc] at h
      rcases List.mem_cons.mp h with h1 | h2
      · rw [h1]; exact hc
      · exact ih h2
    · rw [if_neg hc] at h
      simp at h

theorem dropWhile_nl_self (m : List Char) (h : ¬ '\n' ∈ m) :
    m.dropWhile (fun c => c = '\n') = m := by
  cases m with
  | nil => rfl
  | cons c t =>
    have hc : ¬ (c = '\n') := fun e => h (by simp [e])
    simp [List.dropWhile_cons, hc]

theorem rstripNewlines_append_nl (l : List Char) (h : ¬ '\n' ∈ l) :
    rstripNewlines (l ++ ['\n']) = l := by
  unfold rstripNewlines
  have hrev : ¬ '\n' ∈ l.reverse := by simpa using h
  rw [List.reverse_append]
  simp only [List.reverse_cons, List.reverse_nil, List.nil_append, List.cons_append,
    List.singleton_append]
  rw [List.dropWhile_cons]
  simp only [decide_True, if_true]
  rw [dropWhile_nl_self _ hrev, List.reverse_reverse]

/-! ## Stream-policy lemmas (claim C4) -/

theorem streamCharScan_eq_policy (l : List Char) :
    streamCharScan l = streamLinePolicy l := by
  induction l with
  | nil => rfl
  | cons c rest ih =>
    by_cases h1 : c = '#'
    · subst h1
      simp [streamCharScan, streamLinePolicy, List.dropWhile_cons]
    · by_cases h2 : "Stream".data.isPrefixOf (c :: rest) = true
      · have h2p : 'S' :: "tream".data <+: c :: rest := by
          have hpp := List.isPrefixOf_iff_prefix.mp h2
          simpa using hpp
        have hcS : c = 'S' := (List.cons_prefix_cons.mp h2p).1.symm
        subst hcS
        simp [streamCharScan, streamLinePolicy, List.dropWhile_cons, h2]
      · by_cases h3 : c = ' '
        · subst h3
          have e1 : streamCharScan (' ' :: rest) = streamCharScan rest := by
            simp [streamCharScan, h2]
          have e2 : streamLinePolicy (' ' :: rest) = streamLinePolicy rest := by
            simp [streamLinePolicy, List.dropWhile_cons]
          rw [e1, e2, ih]
        · simp [streamCharScan, streamLinePolicy, List.dropWhile_cons, h1, h2, h3]

theorem streamLines_eq_fold (ls : List (List Char)) (acc : List Char) :
    streamLines acc (ls ++ [[' ']]) = .ok (streamFold acc ls) := by
  induction ls generalizing acc with
  | nil =>
    simp only [List.nil_append, streamFold, List.foldl_nil]
    rw [streamLines, streamLastLine]
    rw [if_neg (by decide), if_neg (by decide)]
  | cons l ls ih =>
    cases hx : ls ++ [[' ']] with
    | nil => exact absurd hx (by simp)
    | cons y ys =>
      rw [List.cons_append, hx, streamLines, streamCharScan_eq_policy, ← hx]
      cases hp : streamLinePolicy l with
      | some v => simpa [streamFold, hp] using ih (acc ++ v ++ ['\n'])
      | none => simpa [streamFold, hp] using ih acc

/-! ## Claim C4 -/

/-- C4 (counterexample): the claim says the Stream scan stops at the first
line that is neither a continuation (`#`) nor a new `Stream` marker, with
no later line contributing.  Here `"END"` is such a terminating line
(`streamLinePolicy` rejects it), yet the ` #0:1: Audio` line after it
still contributes: the returned listing is not the claimed
`"0:0: Video\n"`. -/
theorem C4_counterexample :
    streamLinePolicy "END".data = none ∧
    find_meta_value "Stream #0:0: Video\nEND\n #0:1: Audio" "Stream" =
      .ok (some "0:0: Video\n0:1: Audio\n") ∧
    find_meta_value "Stream #0:0: Video\nEND\n #0:1: Audio" "Stream" ≠
      .ok (some "0:0: Video\n") := by
  decide

/-- C4 (amended): with keyword `Stream`, the scan accumulates each line
whose first non-space character is `#` or that begins with the word
`Stream` into one newline-joined listing; a line that is neither does not
terminate the scan — it is skipped, and scanning continues through every
remaining line of the text. -/
theorem C4_claim (rest : List Char) :
    find_meta_value (String.mk ("Stream".data ++ rest)) "Stream" =
      .ok (some (String.mk (streamFold [] (pySplitChar '\n' rest)))) := by
  have hs : pySplitAfterFirst "Stream".data
      (String.mk ("Stream".data ++ rest)).data = some rest :=
    pySplitAfterFirst_self _ _ (by decide)
  simp only [find_meta_value, hs, if_true]
  rw [streamLines_eq_fold]
  rfl

/-! ## Claim C5 -/

/-- C5: for a timecode with no `.`, the format is selected purely by
length — `> 6` is `H:M:S`, `4..6` is `M:S`, `1` or `2` is plain seconds,
and any other length (0 or 3) is the fatal malformed-timecode failure;
`"5"` converts to 5.0 seconds and the 3-digit `"123"` is rejected. -/
theorem C5_claim (s : String) (hnd : pyContainsSub s.data ['.'] = false) :
    (6 < s.data.length → timecode_format_of s = .ok .fmtHMS) ∧
    (3 < s.data.length → s.data.length ≤ 6 → timecode_format_of s = .ok .fmtMS) ∧
    (s.data.length = 1 ∨ s.data.length = 2 → timecode_format_of s = .ok .fmtS) ∧
    (s.data.length ≤ 3 → s.data.length ≠ 1 → s.data.length ≠ 2 →
      timecode_format_of s = .error ()) ∧
    return_input_duration_in_sec "5" = .ok (some 5) ∧
    return_input_duration_in_sec "123" = .error () := by
  refine ⟨?_, ?_, ?_, ?_, ?_, ?_⟩
  · intro h
    unfold timecode_format_of
    rw [if_pos hnd, if_pos h]
  · intro h3 h6
    unfold timecode_format_of
    rw [if_pos hnd, if_neg (by omega), if_pos h3]
  · intro h12
    unfold timecode_format_of
    rw [if_pos hnd, if_neg (by omega), if_neg (by omega), if_pos (by omega)]
  · intro hle h1 h2
    unfold timecode_format_of
    rw [if_pos hnd, if_neg (by omega), if_neg (by omega), if_neg (by omega)]
  · have h : return_input_duration_digits "5" = .ok (some (['5'], ['0', '0'])) := by
      decide
    have e1 : digitsToNat ['5'] = 5 := by decide
    have e2 : digitsToNat ['0', '0'] = 0 := by decide
    rw [return_input_duration_in_sec, h]
    simp only [Except.map, Option.map, decimalToRat, e1, e2]
    norm_num
  · decide

/-- C5 (witness): the 8-character dotless `"12:34:56"` selects `H:M:S`. -/
theorem C5_witness : timecode_format_of "12:34:56" = .ok .fmtHMS :=
  (C5_claim "12:34:56" (by decide)).1 (by decide)

/-! ## Generic-policy lemmas (claim C6) -/

/-- One-step unfolding of the generic character loop on a cons cell. -/
theorem genericChars_cons (kw kv : List Char) (c : Char) (rest : List Char) :
    genericChars kw kv (c :: rest) =
      (if c = ':' then .nextLine (kv ++ rest.drop 1 ++ ['\n']) false
       else if c = ' ' then genericChars kw kv rest
       else
         if transformValue kw (rstripNewlines kv) = [] then
           (match genericChars kw kv rest with
            | .nextLine kv2 _ => .nextLine kv2 true
            | .finish _ r => .finish true r)
         else .finish false (transformValue kw (rstripNewlines kv))) := rfl

/-- One-step unfolding of the generic line loop on a cons cell. -/
theorem genericLines_cons (kw : List Char) (first : Option (Option (List Char)))
    (kv l : List Char) (rest : List (List Char)) :
    genericLines kw first kv (l :: rest) =
      (match genericChars kw kv l with
       | .nextLine kv2 sawNone => genericLines kw (mergeFirst first sawNone) kv2 rest
       | .finish sawNone res =>
         match mergeFirst first sawNone with
         | some v => .ok v
         | none => .ok (some res)) := rfl

theorem genericLines_step_nextLine (kw : List Char)
    (first : Option (Option (List Char))) (kv l : List Char)
    (rest : List (List Char)) (kv2 : List Char) (sawNone : Bool)
    (h : genericChars kw kv l = .nextLine kv2 sawNone) :
    genericLines kw first kv (l :: rest) =
      genericLines kw (mergeFirst first sawNone) kv2 rest := by
  rw [genericLines_cons, h]

theorem genericLines_step_finish (kw : List Char)
    (first : Option (Option (List Char))) (kv l : List Char)
    (rest : List (List Char)) (sawNone : Bool) (res : List Char)
    (h : genericChars kw kv l = .finish sawNone res) :
    genericLines kw first kv (l :: rest) =
      (match mergeFirst first sawNone with
       | some v => .ok v
       | none => .ok (some res)) := by
  rw [genericLines_cons, h]

theorem genericChars_spaces (kw kv sp l : List Char) (h : ∀ x ∈ sp, x = ' ') :
    genericChars kw kv (sp ++ l) = genericChars kw kv l := by
  induction sp with
  | nil => rfl
  | cons c cs ih =>
    have hc : c = ' ' := h c (by simp)
    subst hc
    rw [List.cons_append]
    rw [show genericChars kw kv (' ' :: (cs ++ l)) = genericChars kw kv (cs ++ l) by
      simp [genericChars]]
    exact ih (fun x hx => h x (by simp [hx]))

/-! ## Claim C6 -/

/-- C6: diagnostic text whose duration line reads
`Duration: 00:01:30.25, <bitrate info>` (followed by a further line whose
first non-space character starts the next field) yields `"01:30.25"` from
the `Duration` extraction — comma split, leading-zero strip, stray-colon
removal — and the timecode converter turns that into exactly 90.25
seconds. -/
theorem C6_claim (front bitrate tailText : String) (c : Char) (h2 : List Char)
    (hsplit : pySplitAfterFirst "Duration".data
        (front.data ++ "Duration".data ++
          (": 00:01:30.25, ".data ++ bitrate.data ++ '\n' :: tailText.data)) =
      some (": 00:01:30.25, ".data ++ bitrate.data ++ '\n' :: tailText.data))
    (hb : ¬ '\n' ∈ bitrate.data)
    (hline2 : ((pySplitChar '\n' tailText.data).headD []).dropWhile
        (fun ch => ch = ' ') = c :: h2)
    (hc : ¬ c = ':') :
    find_meta_value
        (String.mk (front.data ++ "Duration".data ++
          (": 00:01:30.25, ".data ++ bitrate.data ++ '\n' :: tailText.data)))
        "Duration" = .ok (some "01:30.25") ∧
    return_input_duration_in_sec "01:30.25" = .ok (some (90.25 : ℚ)) := by
  constructor
  · have hnl1 : ¬ '\n' ∈ (": 00:01:30.25, ".data ++ bitrate.data) := by
      intro hm
      rcases List.mem_append.mp hm with hma | hmb
      · revert hma
        decide
      · exact hb hmb
    have hnl1b : ¬ '\n' ∈ ("00:01:30.25, ".data ++ bitrate.data) := by
      intro hm
      rcases List.mem_append.mp hm with hma | hmb
      · revert hma
        decide
      · exact hb hmb
    have hlines : pySplitChar '\n'
        (": 00:01:30.25, ".data ++ bitrate.data ++ '\n' :: tailText.data) =
        (": 00:01:30.25, ".data ++ bitrate.data) :: pySplitChar '\n' tailText.data := by
      have hg := pySplitChar_append_sep '\n' (": 00:01:30.25, ".data ++ bitrate.data)
        tailText.data hnl1
      rw [List.append_assoc] at hg
      exact hg
    obtain ⟨l2, t2, hl2⟩ : ∃ l2 t2, pySplitChar '\n' tailText.data = l2 :: t2 := by
      cases hq : pySplitChar '\n' tailText.data with
      | nil => exact absurd hq (pySplitChar_ne_nil _ _)
      | cons a b => exact ⟨a, b, rfl⟩
    have hline2' : l2.dropWhile (fun ch => ch = ' ') = c :: h2 := by
      rw [hl2] at hline2
      simpa using hline2
    have hcsp : ¬ c = ' ' := by
      have hf := dropWhile_head_false _ _ _ _ hline2'
      simpa using hf
    have hta : l2.takeWhile (fun ch => ch = ' ') ++
        l2.dropWhile (fun ch => ch = ' ') = l2 :=
      List.takeWhile_append_dropWhile _ _
    have hdecomp : l2 = l2.takeWhile (fun ch => ch = ' ') ++ (c :: h2) := by
      rw [← hline2']
      exact hta.symm
    have hspmem : ∀ x ∈ l2.takeWhile (fun ch => ch = ' '), x = ' ' := by
      intro x hx
      have hxp := mem_takeWhile_true _ _ _ hx
      simpa using hxp
    have hcomplete : transformValue "Duration".data
        (rstripNewlines (("00:01:30.25, ".data ++ bitrate.data) ++ ['\n'])) =
        "01:30.25".data := by
      rw [rstripNewlines_append_nl _ hnl1b]
      unfold transformValue
      rw [if_pos (Or.inr rfl)]
      rw [show "00:01:30.25, ".data ++ bitrate.data =
        "00:01:30.25".data ++ ',' :: (' ' :: bitrate.data) from rfl]
      rw [pySplitChar_append_sep ',' _ _ (by decide)]
      simp only [List.headD_cons]
      rw [show lstripZeros "00:01:30.25".data = ':' :: "01:30.25".data from by decide]
      decide
    have hstep2 : genericChars "Duration".data
        (("00:01:30.25, ".data ++ bitrate.data) ++ ['\n']) l2 =
        .finish false "01:30.25".data := by
      conv_lhs => rw [hdecomp]
      rw [genericChars_spaces _ _ _ _ hspmem]
      rw [genericChars_cons, if_neg hc, if_neg hcsp, hcomplete]
      rw [if_neg (by decide)]
    have hstep1 : genericChars "Duration".data []
        (": 00:01:30.25, ".data ++ bitrate.data) =
        .nextLine (("00:01:30.25, ".data ++ bitrate.data) ++ ['\n']) false := by
      rw [show ": 00:01:30.25, ".data ++ bitrate.data =
        ':' :: (' ' :: ("00:01:30.25, ".data ++ bitrate.data)) from rfl]
      rw [genericChars_cons, if_pos rfl]
      rw [List.drop_succ_cons, List.drop_zero, List.nil_append]
    have hs : pySplitAfterFirst "Duration".data
        (String.mk (front.data ++ "Duration".data ++
          (": 00:01:30.25, ".data ++ bitrate.data ++ '\n' :: tailText.data))).data =
        some (": 00:01:30.25, ".data ++ bitrate.data ++ '\n' :: tailText.data) :=
      hsplit
    simp only [find_meta_value, hs]
    rw [if_neg (by decide), if_neg (by decide)]
    rw [hlines, hl2]
    rw [show ((": 00:01:30.25, ".data ++ bitrate.data) :: l2 :: t2) ++ [[' ']] =
      (": 00:01:30.25, ".data ++ bitrate.data) :: ((l2 :: t2) ++ [[' ']]) from rfl]
    rw [genericLines_step_nextLine _ _ _ _ _ _ _ hstep1]
    rw [show (l2 :: t2) ++ [[' ']] = l2 :: (t2 ++ [[' ']]) from rfl]
    rw [genericLines_step_finish _ _ _ _ _ _ _ hstep2]
    rfl
  · have hd : return_input_duration_digits "01:30.25" =
        .ok (some (['9', '0'], ['2', '5', '0', '0', '0', '0'])) := by decide
    have e1 : digitsToNat ['9', '0'] = 90 := by decide
    have e2 : digitsToNat ['2', '5', '0', '0', '0', '0'] = 250000 := by decide
    have e3 : (['2', '5', '0', '0', '0', '0'] : List Char).length = 6 := by decide
    rw [return_input_duration_in_sec, hd]
    simp only [Except.map, Option.map, decimalToRat, e1, e2, e3]
    norm_num

/-- C6 (witness): a concrete diagnostic text with
`Duration: 00:01:30.25, bitrate: 1101 kb/s` followed by a `Stream` line. -/
theorem C6_witness :
    find_meta_value (String.mk ("Input #0, mp4:\n  ".data ++ "Duration".data ++
        (": 00:01:30.25, ".data ++ "bitrate: 1101 kb/s".data ++
          '\n' :: "  Stream #0:0: Video: h264".data)))
      "Duration" = .ok (some "01:30.25") ∧
    return_input_duration_in_sec "01:30.25" = .ok (some (90.25 : ℚ)) :=
  C6_claim "Input #0, mp4:\n  " "bitrate: 1101 kb/s" "  Stream #0:0: Video: h264"
    'S' "tream #0:0: Video: h264".data (by decide) (by decide) (by decide) (by decide)

/-! ## Claim C7 -/

/-- A line containing `Video` and none of the other stream markers is
classified as exactly one descriptor: `Artwork` when the line's last 14
characters are `(attached pic)`, else `Video`. -/
theorem classifyChars_video (orig suffx : List Char)
    (hv : pyContainsSub suffx "Video".data = true)
    (ha : pyContainsSub suffx "Audio".data = false)
    (hd : pyContainsSub suffx "Data".data = false)
    (hs : pyContainsSub suffx "Subtitle".data = false) :
    classifyChars orig suffx =
      [if pyLastN 14 orig = "(attached pic)".data then "Artwork" else "Video"] := by
  induction suffx with
  | nil => simp [pyContainsSub] at hv
  | cons x rest ih =>
    rw [pyContainsSub] at hv ha hd hs
    simp only [Bool.or_eq_true] at hv
    simp only [Bool.or_eq_false_iff] at ha hd hs
    by_cases hvp : "Video".data.isPrefixOf (x :: rest) = true
    · rw [show classifyChars orig (x :: rest) =
        (if "Video".data.isPrefixOf (x :: rest) then
          (if pyLastN 14 orig = "(attached pic)".data then ["Artwork"] else ["Video"])
        else if "Audio".data.isPrefixOf (x :: rest) then ["Audio"]
        else if "Data".data.isPrefixOf (x :: rest) then ["Chapter"]
        else if "Subtitle".data.isPrefixOf (x :: rest) then
          subtitleScanFrom orig ++ classifyChars orig rest
        else classifyChars orig rest) from rfl]
      rw [if_pos hvp]
      by_cases hp : pyLastN 14 orig = "(attached pic)".data
      · rw [if_pos hp, if_pos hp]
      · rw [if_neg hp, if_neg hp]
    · have hv' : pyContainsSub rest "Video".data = true := by
        rcases hv with h1 | h1
        · exact absurd h1 hvp
        · exact h1
      rw [show classifyChars orig (x :: rest) =
        (if "Video".data.isPrefixOf (x :: rest) then
          (if pyLastN 14 orig = "(attached pic)".data then ["Artwork"] else ["Video"])
        else if "Audio".data.isPrefixOf (x :: rest) then ["Audio"]
        else if "Data".data.isPrefixOf (x :: rest) then ["Chapter"]
        else if "Subtitle".data.isPrefixOf (x :: rest) then
          subtitleScanFrom orig ++ classifyChars orig rest
        else classifyChars orig rest) from rfl]
      rw [if_neg (by simpa using hvp), if_neg (by simp [ha.1]),
        if_neg (by simp [hd.1]), if_neg (by simp [hs.1])]
      exact ih hv' ha.2 hd.2 hs.2

/-- The text of a single line, as `splitlines` recovers it. -/
theorem pySplitLines_append_nl (a b : List Char) (h : ¬ '\n' ∈ a) :
    pySplitLines (a ++ '\n' :: b) = a :: pySplitLines b := by
  induction a with
  | nil => simp [pySplitLines]
  | cons c cs ih =>
    have hc : ¬ (c = '\n') := fun e => h (by simp [e])
    have hcs : ¬ '\n' ∈ cs := fun m => h (List.mem_cons_of_mem _ m)
    rw [List.cons_append, pySplitLines, if_neg hc, ih hcs]

theorem pySplitLines_single (l : List Char) (h : ¬ '\n' ∈ l) (hne : l ≠ []) :
    pySplitLines l = [l] := by
  induction l with
  | nil => exact absurd rfl hne
  | cons c cs ih =>
    have hc : ¬ (c = '\n') := fun e => h (by simp [e])
    have hcs : ¬ '\n' ∈ cs := fun m => h (List.mem_cons_of_mem _ m)
    rw [pySplitLines, if_neg hc]
    by_cases hcse : cs = []
    · subst hcse
      rw [show pySplitLines [] = [] from rfl]
    · rw [ih hcs hcse]

/-- C7: a stream listing of one plain `Video` line followed by one `Video`
line ending in the `(attached pic)` marker classifies as exactly
`[Video, Artwork]`, never `[Video, Video]`. -/
theorem C7_claim (l1 l2 : String)
    (h1v : pyContainsSub l1.data "Video".data = true)
    (h1a : pyContainsSub l1.data "Audio".data = false)
    (h1d : pyContainsSub l1.data "Data".data = false)
    (h1s : pyContainsSub l1.data "Subtitle".data = false)
    (h1pic : ¬ pyLastN 14 l1.data = "(attached pic)".data)
    (h1nl : ¬ '\n' ∈ l1.data)
    (h2v : pyContainsSub l2.data "Video".data = true)
    (h2a : pyContainsSub l2.data "Audio".data = false)
    (h2d : pyContainsSub l2.data "Data".data = false)
    (h2s : pyContainsSub l2.data "Subtitle".data = false)
    (h2pic : pyLastN 14 l2.data = "(attached pic)".data)
    (h2nl : ¬ '\n' ∈ l2.data) :
    return_stream_types (l1 ++ "\n" ++ l2) = ["Video", "Artwork"] := by
  have h2ne : l2.data ≠ [] := by
    intro he
    rw [he] at h2pic
    exact absurd h2pic (by decide)
  have hdata : (l1 ++ "\n" ++ l2).data = l1.data ++ '\n' :: l2.data := by
    simp [String.data_append]
  unfold return_stream_types
  rw [hdata, pySplitLines_append_nl _ _ h1nl, pySplitLines_single _ h2nl h2ne]
  simp only [List.map_cons, List.map_nil, List.flatten]
  unfold classifyLine
  rw [classifyChars_video _ _ h1v h1a h1d h1s,
    classifyChars_video _ _ h2v h2a h2d h2s]
  rw [if_neg h1pic, if_pos h2pic]
  rfl

/-- C7 (witness): a concrete two-line listing. -/
theorem C7_witness :
    return_stream_types ("0:0(und): Video: h264" ++ "\n" ++
      "0:1: Video: png (attached pic)") = ["Video", "Artwork"] :=
  C7_claim "0:0(und): Video: h264" "0:1: Video: png (attached pic)"
    (by decide) (by decide) (by decide) (by decide) (by decide) (by decide)
    (by decide) (by decide) (by decide) (by decide) (by decide) (by decide)

/-! ## Claim C10 -/

/-- C10 (counterexample): `"Subtitle Data"` contains the word `Subtitle`
and no `'('`, yet `return_stream_types` does append a descriptor for that
line — the scan continues past the Subtitle branch and the later `Data`
match appends `Chapter`. -/
theorem C10_counterexample :
    pyContainsSub "Subtitle Data".data "Subtitle".data = true ∧
    pyContainsSub "Subtitle Data".data ['('] = false ∧
    return_stream_types "Subtitle Data" = ["Chapter"] := by
  decide

theorem subtitleScanFrom_no_paren (l : List Char) (h : ¬ '(' ∈ l) :
    subtitleScanFrom l = [] := by
  induction l with
  | nil => rfl
  | cons c cs ih =>
    have hc : ¬ (c = '(') := fun e => h (by simp [e])
    rw [subtitleScanFrom, if_neg hc]
    exact ih (fun m => h (List.mem_cons_of_mem _ m))

/-- A line with no `(` and none of the `Video`/`Audio`/`Data` markers
contributes no descriptor, whatever subtitle markers it contains. -/
theorem classifyChars_skip (orig suffx : List Char)
    (hparen : ¬ '(' ∈ orig)
    (hv : pyContainsSub suffx "Video".data = false)
    (ha : pyContainsSub suffx "Audio".data = false)
    (hd : pyContainsSub suffx "Data".data = false) :
    classifyChars orig suffx = [] := by
  induction suffx with
  | nil => rfl
  | cons x rest ih =>
    rw [pyContainsSub] at hv ha hd
    simp only [Bool.or_eq_false_iff] at hv ha hd
    rw [show classifyChars orig (x :: rest) =
      (if "Video".data.isPrefixOf (x :: rest) then
        (if pyLastN 14 orig = "(attached pic)".data then ["Artwork"] else ["Video"])
      else if "Audio".data.isPrefixOf (x :: rest) then ["Audio"]
      else if "Data".data.isPrefixOf (x :: rest) then ["Chapter"]
      else if "Subtitle".data.isPrefixOf (x :: rest) then
        subtitleScanFrom orig ++ classifyChars orig rest
      else classifyChars orig rest) from rfl]
    rw [if_neg (by simp [hv.1]), if_neg (by simp [ha.1]), if_neg (by simp [hd.1])]
    by_cases hsp : "Subtitle".data.isPrefixOf (x :: rest) = true
    · rw [if_pos hsp, subtitleScanFrom_no_paren _ hparen, List.nil_append]
      exact ih hv.2 ha.2 hd.2
    · rw [if_neg (by simpa using hsp)]
      exact ih hv.2 ha.2 hd.2

theorem splitLines_interLines (ls : List (List Char))
    (h : ∀ x ∈ ls, ¬ '\n' ∈ x ∧ x ≠ []) :
    pySplitLines (interLines ls) = ls := by
  induction ls with
  | nil => rfl
  | cons x ls ih =>
    cases ls with
    | nil =>
      rw [show interLines [x] = x from rfl]
      exact pySplitLines_single x (h x (by simp)).1 (h x (by simp)).2
    | cons y t =>
      rw [show interLines (x :: y :: t) = x ++ '\n' :: interLines (y :: t) from rfl]
      rw [pySplitLines_append_nl _ _ (h x (by simp)).1]
      rw [ih (fun z hz => h z (List.mem_cons_of_mem _ hz))]

/-- C10 (amended): a stream-listing line that contains `Subtitle`, no `(`,
and none of the `Video`/`Audio`/`Data` markers appends no descriptor: the
classification of a listing containing it equals the classification with
the line removed, so every later stream's positional index shifts down by
the dropped descriptor. -/
theorem C10_claim (l : List Char) (pre post : List (List Char))
    (hsub : pyContainsSub l "Subtitle".data = true)
    (hparen : ¬ '(' ∈ l)
    (hv : pyContainsSub l "Video".data = false)
    (ha : pyContainsSub l "Audio".data = false)
    (hd : pyContainsSub l "Data".data = false)
    (hnl : ¬ '\n' ∈ l) (hne : l ≠ [])
    (hpre : ∀ x ∈ pre, ¬ '\n' ∈ x ∧ x ≠ [])
    (hpost : ∀ x ∈ post, ¬ '\n' ∈ x ∧ x ≠ []) :
    return_stream_types (String.mk (interLines (pre ++ l :: post))) =
      return_stream_types (String.mk (interLines (pre ++ post))) := by
  unfold return_stream_types
  rw [show (String.mk (interLines (pre ++ l :: post))).data =
    interLines (pre ++ l :: post) from rfl]
  rw [show (String.mk (interLines (pre ++ post))).data =
    interLines (pre ++ post) from rfl]
  have hw1 : ∀ x ∈ pre ++ l :: post, ¬ '\n' ∈ x ∧ x ≠ [] := by
    intro x hx
    rcases List.mem_append.mp hx with h1 | h1
    · exact hpre x h1
    · rcases List.mem_cons.mp h1 with h2 | h2
      · subst h2
        exact ⟨hnl, hne⟩
      · exact hpost x h2
  have hw2 : ∀ x ∈ pre ++ post, ¬ '\n' ∈ x ∧ x ≠ [] := by
    intro x hx
    rcases List.mem_append.mp hx with h1 | h1
    · exact hpre x h1
    · exact hpost x h1
  rw [splitLines_interLines _ hw1, splitLines_interLines _ hw2]
  rw [List.map_append, List.map_append, List.map_cons]
  rw [List.flatten_append, List.flatten_append, List.flatten_cons]
  rw [show classifyLine l = classifyChars l l from rfl]
  rw [classifyChars_skip l l hparen hv ha hd, List.nil_append]

/-- C10 (witness): dropping the parenthesis-free subtitle line from a
Video/Subtitle/Audio listing leaves `[Video, Audio]`. -/
theorem C10_witness :
    return_stream_types (String.mk (interLines ["#0:0: Video: h264".data,
      "Subtitle: subrip".data, "#0:2: Audio: aac".data])) =
      return_stream_types (String.mk (interLines ["#0:0: Video: h264".data,
        "#0:2: Audio: aac".data])) :=
  C10_claim "Subtitle: subrip".data ["#0:0: Video: h264".data]
    ["#0:2: Audio: aac".data] (by decide) (by decide) (by decide) (by decide)
    (by decide) (by decide) (by decide) (by decide) (by decide)

/-! ## Claim C1 -/

/-- C1: in the scenario where the primary render succeeds and produces the
declared output but the patch pass's embedded copy never appears in the
scratch directory, `check_depend_then_ren_and_embed_original_metadata`
does not return the success-without-patch result: the patch-miss branch
removes the scratch directory and the unconditional removal before
`return True` then raises `FileNotFoundError`, which escapes.  The
unpatched output (and the input) are still on disk and the scratch
directory is gone in the final state. -/
theorem C1_claim :
    check_depend_then_ren_and_embed_original_metadata scenEnv [scenInPath]
        [scenOutPath] scenCmd true false false (pure ()) scenFs0 =
      (.error .fileNotFound, { files := [scenOutPath, scenInPath], dirs := [[]] }) ∧
    ({ files := [scenOutPath, scenInPath], dirs := [[]] } : FS).files.contains
      scenOutPath = true ∧
    ({ files := [scenOutPath, scenInPath], dirs := [[]] } : FS).dirs.contains
      scenTempDir = false := by
  decide

/-! ## Claim C2 -/

/-- C2: with two fields requested (`title=1, lyrics=2`) the method probes
both fields, but because `metadata_value_list.append(current_key_value)`
sits after the keyword loop instead of inside it, the returned list holds
only the last value — one element, not the claimed two. -/
theorem C2_claim :
    return_metadata twoFieldEnv "in.mp4" twoFieldParams =
      ([MAEv.fileCheck,
        MAEv.probeCall ["ffprobe", "-v", "quiet", "-show_entries",
          "format_tags=title", "-of", "default=nw=1:nk=1", "in.mp4"],
        MAEv.probeCall ["ffprobe", "-v", "quiet", "-show_entries",
          "format_tags=lyrics", "-of", "default=nw=1:nk=1", "in.mp4"]],
       .ok [some "Bar"]) ∧
    ([some "Bar"] : List (Option String)).length = 1 := by
  decide

/-! ## Claim C3 -/

/-- C3: with all twenty fields `False`, `all(in_meta_value_list)` is
`False`, so the at-least-one-field error is never reported; the method
proceeds to the file-existence check and then crashes with
`UnboundLocalError` at the final append. -/
theorem C3_claim :
    return_metadata plainEnv "in.mp4" allFalseParams =
      ([MAEv.fileCheck], .error .unboundLocal) ∧
    MAEv.printedAtLeastOneErr ∉ (return_metadata plainEnv "in.mp4" allFalseParams).1 ∧
    MAEv.fileCheck ∈ (return_metadata plainEnv "in.mp4" allFalseParams).1 := by
  decide

/-! ## Claim C8 -/

/-- C8: `_term_return_file_info` always returns `stderr + stdout`
regardless of exit status — the `subprocess.run` call is made without
`check`, so `CalledProcessError` is never raised and the handler is
unreachable. -/
theorem C8_claim (b : Bool) (r : ProcResult) :
    term_return_file_info b r = .ok (.inl (r.pstderr ++ r.pstdout)) := by
  simp [term_return_file_info, pySubRun]

/-! ## Claim C9 -/

/-- C9: `run_terminal_cmd` with default flags appends `-hide_banner` and
`-movflags +faststart` to the stored command before spawning (the spawned
argv is the mutated list itself), so the stored command differs from the
constructed one, and a second call appends the same flags again. -/
theorem C9_claim (cmd : List String) :
    (run_terminal_cmd_state true true cmd).1 =
      cmd ++ ["-hide_banner", "-movflags", "+faststart"] ∧
    (run_terminal_cmd_state true true cmd).2 = (run_terminal_cmd_state true true cmd).1 ∧
    (run_terminal_cmd_state true true cmd).1 ≠ cmd ∧
    (run_terminal_cmd_state true true ((run_terminal_cmd_state true true cmd).1)).1 =
      cmd ++ ["-hide_banner", "-movflags", "+faststart"] ++
        ["-hide_banner", "-movflags", "+faststart"] := by
  refine ⟨?_, rfl, ?_, ?_⟩
  · simp [run_terminal_cmd_state, run_terminal_cmd_cmds]
  · intro h
    have hl := congrArg List.length h
    simp [run_terminal_cmd_state, run_terminal_cmd_cmds] at hl
  · simp [run_terminal_cmd_state, run_terminal_cmd_cmds]
